import Mathlib

/-!
# Verification of the vc-audit valuation engine core

A shallow embedding of the valuation core of the `vc-audit` backend
(`src/backend/src/...`), together with theorems settling the frozen claims
about it.

Modelling conventions:

* Python `Decimal` values are modelled as exact rationals (`ℚ`).  The Python
  `decimal` arithmetic rounds every operation to the context precision of
  28 significant digits; all quantities appearing in the claims are orders
  of magnitude below that precision, so exact rational arithmetic is
  faithful on the relevant domain.
* `datetime.date` is modelled by the structure `Date` carrying the calendar
  `year` and `month` (used by the whole-month age computation in
  `last_round.py`) together with `ord`, the proleptic day ordinal
  (`date.toordinal()`), which determines date comparison and day
  differences (`(d1 - d2).days = d1.ord - d2.ord`).  No claim requires the
  arithmetic relation between (year, month) and the day ordinal, so it is
  not axiomatised.
* Fallible Python code (raised exceptions) is modelled with `Except` /
  `Option`.  Pydantic validation is modelled as a function returning
  `Except String`; pydantic collects all field errors, the model returns
  the first one, which is equivalent for "construction fails" claims.
* Audit-trail construction (`_add_step`) builds display strings only; no
  claim depends on the audit text, so the embedded method results carry
  the numeric/value fields and warnings but not the audit steps.  The
  audit-relevant structural facts (field names of `MethodResult`,
  constructor keywords) are embedded separately as explicit name lists.
* The repository contains two parallel method trees: `src/methods/`
  (registered into the engine of `src/engine/engine.py`) and
  `src/valuation/` (the evolved tree used by `src/services/valuations.py`
  and the test suite; its engine module is not part of the snapshot).
  Both `ComparablesMethod.execute` variants are embedded, in namespaces
  `Methods` and `Valuation` respectively.
-/

namespace VCAudit

/-- Confidence level in a valuation result (`src/models.py`, `Confidence`). -/
inductive Confidence
  | high
  | medium
  | low
deriving DecidableEq, Repr

/-- Available valuation methods (`src/models.py`, `MethodName`). -/
inductive MethodName
  | last_round
  | comparables
deriving DecidableEq, Repr

/-- The string value of a `MethodName` (Python `Enum.value`). -/
def MethodName.val : MethodName → String
  | .last_round => "last_round"
  | .comparables => "comparables"

/-- Company funding stage (`src/models.py`, `CompanyStage`). -/
inductive CompanyStage
  | seed
  | series_a
  | series_b
  | series_c
  | growth
deriving DecidableEq, Repr

/-- The string value of a `CompanyStage`. -/
def CompanyStage.val : CompanyStage → String
  | .seed => "seed"
  | .series_a => "series_a"
  | .series_b => "series_b"
  | .series_c => "series_c"
  | .growth => "growth"

/-- A calendar date: `year`/`month` as used by the whole-month age
computation, and `ord`, the proleptic day ordinal used for comparisons and
day differences. -/
structure Date where
  year : ℤ
  month : ℤ
  ord : ℤ
deriving DecidableEq, Repr

/-- Python date order (`d1 <= d2`), determined by the day ordinal. -/
def Date.le (a b : Date) : Prop := a.ord ≤ b.ord

instance : DecidablePred fun p : Date × Date => p.1.le p.2 := by
  intro p; unfold Date.le; infer_instance

instance (a b : Date) : Decidable (a.le b) := by
  unfold Date.le; infer_instance

/-- Company financial metrics (`src/models.py`, `Financials`). -/
structure Financials where
  revenue_ttm : Option ℚ := none
  revenue_growth_yoy : Option ℚ := none
  gross_margin : Option ℚ := none
  burn_rate : Option ℚ := none
  runway_months : Option ℤ := none
deriving DecidableEq, Repr

/-- Last funding round details (`src/models.py`, `LastRound`). -/
structure LastRound where
  date : Date
  valuation_pre : ℚ
  valuation_post : ℚ
  amount_raised : ℚ
  lead_investor : Option String := none
deriving DecidableEq, Repr

/-- Company-specific valuation adjustment (`src/models.py`, `Adjustment`). -/
structure Adjustment where
  name : String
  factor : ℚ
  reason : String
deriving DecidableEq, Repr

/-- Basic company information (`src/models.py`, `Company`). -/
structure Company where
  id : String
  name : String
  sector : String
  stage : CompanyStage
  founded_date : Option Date := none
deriving DecidableEq, Repr

/-- Complete company data for valuation (`src/models.py`, `CompanyData`). -/
structure CompanyData where
  company : Company
  financials : Financials
  last_round : Option LastRound := none
  adjustments : List Adjustment := []
deriving DecidableEq, Repr

/-- Market index data point (`src/models.py`, `MarketIndex`). -/
structure MarketIndex where
  date : Date
  value : ℚ
  name : String
deriving DecidableEq, Repr

/-- Public comparable company data (`src/models.py`, `ComparableCompany`). -/
structure ComparableCompany where
  ticker : String
  name : String
  sector : String
  revenue_ttm : ℚ
  market_cap : ℚ
  ev_revenue_multiple : ℚ
  revenue_growth_yoy : Option ℚ := none
deriving DecidableEq, Repr

/-- Set of comparable companies for a sector (`src/models.py`,
`ComparableSet`). -/
structure ComparableSet where
  sector : String
  as_of_date : Date
  companies : List ComparableCompany
deriving DecidableEq, Repr

/-- Result from a single valuation method (`src/models.py`, `MethodResult`,
lines 183-189).  The declared pydantic fields are `method`, `value`,
`confidence`, `audit_trail`, `warnings`; the audit trail holds display
strings only and is not modelled numerically (see the header comment). -/
structure MethodResult where
  method : MethodName
  value : ℚ
  confidence : Confidence
  warnings : List String := []
deriving DecidableEq, Repr

/-- Record of a skipped valuation method (`src/models.py`, `MethodSkipped`). -/
structure MethodSkipped where
  method : MethodName
  reason : String
deriving DecidableEq, Repr

/-- The pydantic field names declared on `MethodResult` in `src/models.py`
lines 183-189 (`MethodResult.model_fields`), in declaration order. -/
def methodResultFieldNames : List String :=
  ["method", "value", "confidence", "audit_trail", "warnings"]

/-- The keyword arguments passed to the `MethodResult(...)` constructor at
the end of `LastRoundMethod.execute` in `src/methods/last_round.py`
(lines 190-196), in source order. -/
def methodsLastRoundResultKwargs : List String :=
  ["method", "value", "confidence", "audit_trail", "warnings"]

/-- The keyword arguments passed to the `MethodResult(...)` constructor at
the end of `LastRoundMethod.execute` in `src/valuation/last_round.py`
(lines 210-217), in source order. -/
def valuationLastRoundResultKwargs : List String :=
  ["method", "value", "confidence", "confidence_explanation", "audit_trail",
    "warnings"]

/-- The keyword arguments passed to the `MethodResult(...)` constructor at
the end of `ComparablesMethod.execute` in `src/valuation/comps.py`
(lines 251-258), in source order. -/
def valuationCompsResultKwargs : List String :=
  ["method", "value", "confidence", "confidence_explanation", "audit_trail",
    "warnings"]

/-- The attributes of each `MethodResult` read by `_convert_method_results`
in `src/services/valuations.py` (lines 14-35) when persisting a valuation. -/
def serviceMethodResultReads : List String :=
  ["method", "value", "confidence", "confidence_explanation", "audit_trail",
    "warnings"]

/-- Frozen configuration for valuation parameters (`src/config.py`,
`ValuationConfig`). -/
structure ValuationConfig where
  max_round_age_months : ℤ := 18
  stale_round_threshold_months : ℤ := 12
  default_beta : ℚ := 3/2
  min_comparables : ℕ := 3
  multiple_percentile : ℤ := 50
  high_confidence_spread : ℚ := 15/100
  medium_confidence_spread : ℚ := 30/100
deriving DecidableEq, Repr

/-- The default `ValuationConfig` (all field defaults from `src/config.py`). -/
def defaultConfig : ValuationConfig := {}

end VCAudit

namespace VCAudit

/-! ## Numeric utilities (`src/utils/math_utils.py`)

`sorted(values)` is modelled by `List.mergeSort` with the `≤` comparator:
Python `sorted` is a stable sort, and `List.mergeSort` is a stable sort,
so the two agree on every input. -/

/-- Python `sorted(values)` for rational values. -/
def pySorted (l : List ℚ) : List ℚ :=
  l.mergeSort fun a b => a ≤ b

/-- Embeds `median(values)` from `src/utils/math_utils.py` lines 7-28.  Raises
(`Except.error`) on the empty sequence. -/
def median (values : List ℚ) : Except String ℚ :=
  if values = [] then
    .error "Cannot calculate median of empty sequence"
  else
    let sorted_values := pySorted values
    let n := sorted_values.length
    let mid := n / 2
    if n % 2 = 0 then
      .ok ((sorted_values.getD (mid - 1) 0 + sorted_values.getD mid 0) / 2)
    else
      .ok (sorted_values.getD mid 0)

/-- Embeds `percentile(values, p)` from `src/utils/math_utils.py` lines 31-66.

The source computes `rank = (p / 100) * (n - 1)` in binary floating point
and converts `rank - lower_idx` back to `Decimal` through its decimal
string.  For `p = 50` (the only percentile any claim evaluates) the float
computation `0.5 * (n - 1)` is exact and round-trips exactly through the
string, so the exact rational rank used here coincides with the source. -/
def percentile (values : List ℚ) (p : ℤ) : Except String ℚ :=
  if values = [] then
    .error "Cannot calculate percentile of empty sequence"
  else if ¬(0 ≤ p ∧ p ≤ 100) then
    .error s!"Percentile must be between 0 and 100, got {p}"
  else
    let sorted_values := pySorted values
    let n := sorted_values.length
    if n = 1 then
      .ok (sorted_values.getD 0 0)
    else
      let rank : ℚ := ((p : ℚ) / 100) * ((n : ℚ) - 1)
      let lower_idx : ℕ := (⌊rank⌋).toNat
      let upper_idx : ℕ := min (lower_idx + 1) (n - 1)
      let fraction : ℚ := rank - (lower_idx : ℚ)
      let lower_val := sorted_values.getD lower_idx 0
      let upper_val := sorted_values.getD upper_idx 0
      .ok (lower_val + fraction * (upper_val - lower_val))

/-- Embeds `round_decimal(value, places)` from `src/utils/math_utils.py` lines
69-80: quantization with `ROUND_HALF_UP`, i.e. round to the nearest
multiple of `10^(-places)` with ties going away from zero. -/
def round_decimal (value : ℚ) (places : ℕ) : ℚ :=
  let m : ℚ := 10 ^ places
  if value < 0 then
    -((⌊-value * m + 1/2⌋ : ℚ) / m)
  else
    (⌊value * m + 1/2⌋ : ℚ) / m

end VCAudit

namespace VCAudit

/-! ## Model validation (`src/models.py`, `LastRound`)

Pydantic first runs the field validators (`validate_positive` on
`valuation_pre`, `valuation_post`, `amount_raised`; `validate_date` on
`date`) and then, if all fields validated, the `mode="after"` model
validator `validate_post_money`.  Construction either fails with a
validation error or returns the input values unchanged. -/

/-- Embeds `LastRound` construction (`src/models.py` lines 82-113): returns the
validated round unchanged, or the first validation error raised. -/
def validateLastRound (today : Date) (r : LastRound) : Except String LastRound :=
  if r.valuation_pre ≤ 0 then
    .error "Must be positive"
  else if r.valuation_post ≤ 0 then
    .error "Must be positive"
  else if r.amount_raised ≤ 0 then
    .error "Must be positive"
  else if today.ord < r.date.ord then
    .error "Funding round date cannot be in the future"
  else if |r.valuation_post - (r.valuation_pre + r.amount_raised)| > 1/100 then
    .error "Post-money must equal pre-money + amount raised"
  else
    .ok r

end VCAudit

namespace VCAudit

/-! ## Data access environment

The methods read external data through a `DataLoader`.  The engine-facing
accessors are `get_index(name)` (raising `DataNotFoundError` when the
index is unknown, otherwise returning the points sorted ascending by
date) and `load_comparables(sector)` (raising when the sector file is
missing).  The loader state is modelled as association lists; `none`
lookup results model the raised not-found errors. -/

/-- The data visible through the `DataLoader`, together with
`date.today()`. -/
structure DataEnv where
  today : Date
  indices : List (String × List MarketIndex)
  comparables : List (String × ComparableSet)
deriving DecidableEq, Repr

/-- Embeds `loader.get_index(name)`: `none` models the raised
`DataNotFoundError`. -/
def DataEnv.get_index (env : DataEnv) (name : String) :
    Option (List MarketIndex) :=
  (env.indices.lookup name)

/-- Embeds `loader.load_comparables(sector)`: `none` models the raised
`DataNotFoundError`. -/
def DataEnv.load_comparables (env : DataEnv) (sector : String) :
    Option ComparableSet :=
  (env.comparables.lookup sector)

/-- A method run ends in exactly one of two outcomes
(`ValuationMethod.run`, `src/methods/base.py` lines 96-108). -/
inductive MethodOutcome
  | result (r : MethodResult)
  | skipped (s : MethodSkipped)
deriving DecidableEq, Repr

/-- The `MethodResult` of an outcome, if the method executed. -/
def MethodOutcome.result? : MethodOutcome → Option MethodResult
  | .result r => some r
  | .skipped _ => none

/-- The `MethodSkipped` of an outcome, if the method was skipped. -/
def MethodOutcome.skipped? : MethodOutcome → Option MethodSkipped
  | .result _ => none
  | .skipped s => some s

end VCAudit

namespace VCAudit.Methods

/-! ## The `src/methods/` tree (registered into `src/engine/engine.py`)

`src/engine/engine.py` line 25 imports `src.methods.last_round` and
`src.methods.comps` in that order, so the registry holds
`LAST_ROUND` then `COMPARABLES` and `MethodRegistry.create_all`
instantiates them in that order. -/

/-- The registration order of the methods
(`from src.methods import last_round, comps`). -/
def registeredMethods : List MethodName := [.last_round, .comparables]

/-- The whole-calendar-month age used by `LastRoundMethod`:
`(today.year - round_date.year) * 12 + (today.month - round_date.month)`
(`src/methods/last_round.py` line 42 and lines 83-85). -/
def monthsOld (today round_date : Date) : ℤ :=
  (today.year - round_date.year) * 12 + (today.month - round_date.month)

/-- The skip reason for an over-age round (`src/methods/last_round.py`
lines 45-48). -/
def lastRoundTooOldReason (months_old maxMonths : ℤ) : String :=
  s!"Last round is too old ({months_old} months). Maximum allowed: {maxMonths} months"

/-- Embeds `LastRoundMethod.check_prerequisites` (`src/methods/last_round.py`
lines 35-57).  `none` means the method can run. -/
def lastRoundCheckPrerequisites (env : DataEnv) (data : CompanyData)
    (cfg : ValuationConfig) : Option String :=
  match data.last_round with
  | none => some "No last funding round data available"
  | some lr =>
    let months_old := monthsOld env.today lr.date
    if months_old > cfg.max_round_age_months then
      some (lastRoundTooOldReason months_old cfg.max_round_age_months)
    else
      match env.get_index "NASDAQ" with
      | none =>
        some "Cannot load market index data: Market index not found: NASDAQ"
      | some index_data =>
        if index_data = [] then some "No NASDAQ index data available"
        else none

/-- Embeds `min(index_data, key=...)`: the Python `min` builtin keeps the
running best on ties, so it returns the first element attaining the
minimal key. -/
def pyMinBy (key : MarketIndex → ℤ) : List MarketIndex → Option MarketIndex
  | [] => none
  | a :: l => some (l.foldl (fun best x => if key x < key best then x else best) a)

/-- Embeds `LastRoundMethod._get_closest_index_value` (`src/methods/last_round.py`
lines 198-201): the value of the point minimizing
`abs((x.date - target_date).days)`; `none` models the `min()` error on an
empty sequence. -/
def getClosestIndexValue (index_data : List MarketIndex) (target_date : Date) :
    Option ℚ :=
  (pyMinBy (fun x => |x.date.ord - target_date.ord|) index_data).map (·.value)

/-- Embeds `LastRoundMethod._determine_confidence` (`src/methods/last_round.py`
lines 203-209).  The thresholds are identical in
`src/valuation/last_round.py` lines 224-253, which additionally returns an
explanation string. -/
def lastRoundDetermineConfidence (cfg : ValuationConfig) (months_old : ℤ) :
    Confidence :=
  if months_old ≤ 6 then .high
  else if months_old ≤ cfg.stale_round_threshold_months then .medium
  else .low

/-- The staleness warning added when the round is older than
`stale_round_threshold_months` (`src/methods/last_round.py` lines 86-90). -/
def staleRoundWarning (months_old : ℤ) : String :=
  s!"This funding round is {months_old} months old. Market conditions may have changed significantly since then."

/-- Embeds `LastRoundMethod.execute` (`src/methods/last_round.py` lines 59-196):
anchor on `valuation_post`, apply the beta-scaled market move of the
NASDAQ index between the round date and today, then the company-specific
adjustment factors, and round to 0 decimal places.  `Except.error` models
the uncaught exceptions a real run would raise (`min()` on an empty index
series; `ZeroDivisionError` when the index value at the round date is 0).
Only valid after `check_prerequisites` returned `none`. -/
def lastRoundExecute (env : DataEnv) (data : CompanyData)
    (cfg : ValuationConfig) : Except String MethodResult :=
  match data.last_round with
  | none => .error "AssertionError"
  | some lr =>
    let anchor_value := lr.valuation_post
    let months_old := monthsOld env.today lr.date
    let warnings :=
      if months_old > cfg.stale_round_threshold_months then
        [staleRoundWarning months_old]
      else []
    match env.get_index "NASDAQ" with
    | none => .error "DataNotFoundError: Market index not found: NASDAQ"
    | some index_data =>
      match getClosestIndexValue index_data lr.date,
            getClosestIndexValue index_data env.today with
      | none, _ => .error "ValueError: min() arg is an empty sequence"
      | _, none => .error "ValueError: min() arg is an empty sequence"
      | some round_index, some today_index =>
        if round_index = 0 then .error "ZeroDivisionError"
        else
          let market_return := (today_index - round_index) / round_index
          let beta := cfg.default_beta
          let adjusted_return := beta * market_return
          let market_adjustment := 1 + adjusted_return
          let market_adjusted_value := anchor_value * market_adjustment
          let final_value :=
            if data.adjustments ≠ [] then
              let combined_factor :=
                data.adjustments.foldl (fun acc adj => acc * adj.factor) 1
              market_adjusted_value * combined_factor
            else market_adjusted_value
          .ok { method := .last_round
                value := round_decimal final_value 0
                confidence := lastRoundDetermineConfidence cfg months_old
                warnings := warnings }

/-- Embeds `LastRoundMethod.run()` (`src/methods/base.py` lines 96-108
specialised to `LastRoundMethod`). -/
def lastRoundRun (env : DataEnv) (data : CompanyData) (cfg : ValuationConfig) :
    Except String MethodOutcome :=
  match lastRoundCheckPrerequisites env data cfg with
  | some skip_reason => .ok (.skipped ⟨.last_round, skip_reason⟩)
  | none => (lastRoundExecute env data cfg).map .result

end VCAudit.Methods

namespace VCAudit.Methods

/-- The insufficient-comparables skip reason (`src/methods/comps.py`
lines 40-43). -/
def insufficientComparablesReason (sector : String) (found need : ℕ) : String :=
  s!"Insufficient comparables for sector \x27{sector}\x27. Found {found}, need {need}"

/-- The comparables-load-failure skip reason (`src/methods/comps.py`
lines 44-45), with `e` the `DataNotFoundError` raised by the loader. -/
def cannotLoadComparablesReason (sector : String) : String :=
  s!"Cannot load comparables for sector \x27{sector}\x27: Comparables not found: {sector}"

/-- Embeds `ComparablesMethod.check_prerequisites` (`src/methods/comps.py`
lines 28-47; textually identical in `src/valuation/comps.py`). -/
def compsCheckPrerequisites (env : DataEnv) (data : CompanyData)
    (cfg : ValuationConfig) : Option String :=
  match data.financials.revenue_ttm with
  | none => some "Company has no revenue data (pre-revenue)"
  | some revenue =>
    if revenue ≤ 0 then some "Company revenue must be positive"
    else
      let sector := data.company.sector
      match env.load_comparables sector with
      | none => some (cannotLoadComparablesReason sector)
      | some comps =>
        if comps.companies.length < cfg.min_comparables then
          some (insufficientComparablesReason sector comps.companies.length
            cfg.min_comparables)
        else none

/-- Embeds `ComparablesMethod._select_multiple` (`src/methods/comps.py` lines
195-204; identical in `src/valuation/comps.py` lines 260-269). -/
def selectMultiple (cfg : ValuationConfig) (multiples : List ℚ)
    (median_multiple : ℚ) : Except String ℚ :=
  if cfg.multiple_percentile = 50 then .ok median_multiple
  else percentile multiples cfg.multiple_percentile

/-- Embeds `ComparablesMethod._calculate_private_discount` (`src/methods/comps.py`
lines 206-218; identical in `src/valuation/comps.py` lines 271-283):
illiquidity discount looked up by company stage. -/
def calculatePrivateDiscount (stage : CompanyStage) : ℚ :=
  match stage with
  | .seed => 35/100
  | .series_a => 30/100
  | .series_b => 25/100
  | .series_c => 20/100
  | .growth => 15/100

/-- Embeds `ComparablesMethod._determine_confidence` (`src/methods/comps.py`
lines 220-236): confidence from the coefficient of variation
`cv = std_dev / mean` of the peer multiples.

The source computes `std_dev = variance ** Decimal("0.5")`, a 28-digit
approximation of the square root; since `mean > 0` on the branch that
uses it, `cv < t` is equivalent to `variance < t^2 * mean^2`, which is
how the comparison is expressed here over exact rationals.  (The two can
differ only when the exact `cv` is within the 28th significant digit of a
threshold; no claim depends on that sliver, and no claim depends on this
result of this function at all.) -/
def compsDetermineConfidence (multiples : List ℚ) (median_multiple : ℚ) :
    Confidence :=
  if multiples = [] ∨ median_multiple = 0 then .low
  else
    let n : ℚ := multiples.length
    let mean := multiples.sum / n
    let variance := (multiples.map fun m => (m - mean) ^ 2).sum / n
    if mean ≤ 0 then .low
    else if variance < (3/10) ^ 2 * mean ^ 2 then .high
    else if variance < (5/10) ^ 2 * mean ^ 2 then .medium
    else .low

/-- Embeds `ComparablesMethod.execute` from `src/methods/comps.py` lines 49-193:
`final_value = revenue * adjusted_multiple` (line 170) and the returned
value is `round_decimal(final_value, 0)` (line 189).  This variant applies
no company-specific adjustments.  `Except.error` models uncaught
exceptions (assertion on missing revenue, reload failure, `median` /
`percentile` errors).  The audit steps (lines 56-183, display strings
and the 25th/75th percentile statistics they quote) are not modelled. -/
def compsExecute (env : DataEnv) (data : CompanyData) (cfg : ValuationConfig) :
    Except String MethodResult :=
  match data.financials.revenue_ttm with
  | none => .error "AssertionError"
  | some revenue =>
    match env.load_comparables data.company.sector with
    | none => .error "DataNotFoundError: Comparables not found"
    | some comps =>
      let multiples := comps.companies.map (·.ev_revenue_multiple)
      match median multiples with
      | .error e => .error e
      | .ok median_multiple =>
        match selectMultiple cfg multiples median_multiple with
        | .error e => .error e
        | .ok selected_multiple =>
          let discount := calculatePrivateDiscount data.company.stage
          let adjusted_multiple := selected_multiple * (1 - discount)
          let final_value := revenue * adjusted_multiple
          let confidence := compsDetermineConfidence multiples median_multiple
          .ok { method := .comparables
                value := round_decimal final_value 0
                confidence := confidence
                warnings := [] }

/-- Embeds `ComparablesMethod.run()` (`src/methods/base.py` lines 96-108
specialised to `ComparablesMethod`). -/
def compsRun (env : DataEnv) (data : CompanyData) (cfg : ValuationConfig) :
    Except String MethodOutcome :=
  match compsCheckPrerequisites env data cfg with
  | some skip_reason => .ok (.skipped ⟨.comparables, skip_reason⟩)
  | none => (compsExecute env data cfg).map .result

end VCAudit.Methods

namespace VCAudit.Valuation

/-! ## The `src/valuation/` tree

The evolved method implementations used by `src/services/valuations.py`
and the test suite.  `ComparablesMethod.execute` here applies the shared
adjustment helper `_apply_company_adjustments` of `src/valuation/base.py`
to the base value. -/

/-- Embeds `ValuationMethod._apply_company_adjustments` (`src/valuation/base.py`
lines 75-139), numeric core: multiplies the ordered adjustment factors
together (`combined_factor = Π factor_i`, `1` for the empty list) and
returns `(final_value, combined_factor)` with
`final_value = base_value * combined_factor` (equal to `base_value` when
the list is empty).  The audit step and per-adjustment description
strings it also produces are not modelled. -/
def applyCompanyAdjustments (adjustments : List Adjustment) (base_value : ℚ) :
    ℚ × ℚ :=
  if adjustments ≠ [] then
    let combined_factor := adjustments.foldl (fun acc adj => acc * adj.factor) 1
    (base_value * combined_factor, combined_factor)
  else
    (base_value, 1)

/-- Embeds `ComparablesMethod.execute` from `src/valuation/comps.py` lines 49-258:
`base_value = revenue * adjusted_multiple` (line 180), then the shared
adjustment helper is applied to `base_value` (lines 195-198), and the
returned value is `round_decimal(final_value, 0)` (line 253).  Audit
steps and the confidence-explanation string are not modelled numerically
(the constructor keywords are recorded in `valuationCompsResultKwargs`). -/
def compsExecute (env : DataEnv) (data : CompanyData) (cfg : ValuationConfig) :
    Except String MethodResult :=
  match data.financials.revenue_ttm with
  | none => .error "AssertionError"
  | some revenue =>
    match env.load_comparables data.company.sector with
    | none => .error "DataNotFoundError: Comparables not found"
    | some comps =>
      let multiples := comps.companies.map (·.ev_revenue_multiple)
      match median multiples with
      | .error e => .error e
      | .ok median_multiple =>
        match Methods.selectMultiple cfg multiples median_multiple with
        | .error e => .error e
        | .ok selected_multiple =>
          let discount := Methods.calculatePrivateDiscount data.company.stage
          let adjusted_multiple := selected_multiple * (1 - discount)
          let base_value := revenue * adjusted_multiple
          let final_value := (applyCompanyAdjustments data.adjustments base_value).1
          let confidence := Methods.compsDetermineConfidence multiples median_multiple
          .ok { method := .comparables
                value := round_decimal final_value 0
                confidence := confidence
                warnings := [] }

end VCAudit.Valuation

namespace VCAudit

/-- Executive summary of a valuation (`src/models.py`, `ValuationSummary`).
The narrative fields (`summary_text`, `selection_reason`,
`method_comparison`) are display strings and are not modelled. -/
structure ValuationSummary where
  primary_value : ℚ
  primary_method : MethodName
  value_range_low : Option ℚ := none
  value_range_high : Option ℚ := none
  overall_confidence : Confidence
deriving DecidableEq, Repr

/-- Complete valuation result (`src/models.py`, `ValuationResult`).  The
narrative `cross_method_analysis` string and the stringified
`config_snapshot` are not modelled numerically. -/
structure ValuationResult where
  company_id : String
  company_name : String
  valuation_date : Date
  summary : ValuationSummary
  method_results : List MethodResult
  skipped_methods : List MethodSkipped := []
deriving DecidableEq, Repr

/-- The errors `run_with_data` can raise: its own `NoValidMethodsError`
(`src/exceptions.py` lines 63-70, carrying the company id and the
per-method skip-reason map), or an exception propagating out of the
`execute` of a method. -/
inductive EngineError
  | noValidMethods (company_id : String) (skip_reasons : List (String × String))
  | calculationError (msg : String)
deriving DecidableEq, Repr

end VCAudit

namespace VCAudit.Engine

/-- The confidence sort rank (`src/engine/engine.py` line 184:
`confidence_order = {HIGH: 0, MEDIUM: 1, LOW: 2}`). -/
def confidenceOrder : Confidence → ℕ
  | .high => 0
  | .medium => 1
  | .low => 2

/-- The comparator underlying
`sorted(results, key=lambda r: confidence_order[r.confidence])`. -/
def resultLE (a b : MethodResult) : Bool :=
  confidenceOrder a.confidence ≤ confidenceOrder b.confidence

/-- Embeds `sorted(results, key=lambda r: confidence_order[r.confidence])`
(`src/engine/engine.py` lines 185-187).  Python `sorted` is a stable
sort by the key, as is `List.mergeSort` with this comparator, so the two
agree on every input. -/
def sortedResults (results : List MethodResult) : List MethodResult :=
  results.mergeSort resultLE

/-- Embeds `primary = sorted_results[0]` (`src/engine/engine.py` line 189);
`none` models the `IndexError` on an empty list (unreachable in the
engine, which only summarizes a non-empty result list). -/
def primaryOf (results : List MethodResult) : Option MethodResult :=
  (sortedResults results).head?

/-- Python builtin `min` over a list of numbers (`none` on the empty list). -/
def pyMin : List ℚ → Option ℚ
  | [] => none
  | a :: l => some (l.foldl min a)

/-- Python builtin `max` over a list of numbers (`none` on the empty list). -/
def pyMax : List ℚ → Option ℚ
  | [] => none
  | a :: l => some (l.foldl max a)

/-- Embeds `ValuationEngine._calculate_overall_confidence`
(`src/engine/engine.py` lines 425-462).  With a single result its
confidence is returned verbatim; with several, the spread
`(max - min) / min` — taken as `1` when `min ≤ 0` (line 444) — is
classified against the two config thresholds.  `none` models the `min()`
error on an empty list (unreachable from `_summarize`). -/
def calculateOverallConfidence (cfg : ValuationConfig)
    (results : List MethodResult) : Option Confidence :=
  match results with
  | [] => none
  | [r] => some r.confidence
  | r :: rest =>
    let confidences := (r :: rest).map (·.confidence)
    let values := (r :: rest).map (·.value)
    let min_val := (values.tail).foldl min r.value
    let max_val := (values.tail).foldl max r.value
    let spread : ℚ := if min_val > 0 then (max_val - min_val) / min_val else 1
    if spread ≤ cfg.high_confidence_spread then
      if confidences.contains .high then some .high else some .medium
    else if spread ≤ cfg.medium_confidence_spread then
      if confidences.all (· = .high) then some .medium
      else if confidences.contains .low then some .low
      else some .medium
    else some .low

/-- Embeds `ValuationEngine._summarize` (`src/engine/engine.py` lines 169-233),
numeric core: the primary is the head of the stable confidence sort, the
value range is populated only when more than one method ran, and the
overall confidence comes from `_calculate_overall_confidence`.  The
narrative summary text and method-comparison table are not modelled.
`none` models the index error on an empty result list (unreachable). -/
def summarize (cfg : ValuationConfig) (results : List MethodResult) :
    Option ValuationSummary :=
  match primaryOf results with
  | none => none
  | some primary =>
    match calculateOverallConfidence cfg results with
    | none => none
    | some overall_confidence =>
      let ranged := results.length > 1
      some { primary_value := primary.value
             primary_method := primary.method
             value_range_low := if ranged then pyMin (results.map (·.value)) else none
             value_range_high := if ranged then pyMax (results.map (·.value)) else none
             overall_confidence := overall_confidence }

/-- Embeds `ValuationEngine.run_with_data` (`src/engine/engine.py` lines 63-116):
instantiate the registered methods (`last_round`, then `comparables`),
run each via `run()`, partition the outcomes, raise `NoValidMethodsError`
with the skip-reason map when no method executed, otherwise build the
summary and the result.  An exception escaping the `execute` of a method
propagates (`EngineError.calculationError`). -/
def runWithData (env : DataEnv) (data : CompanyData) (cfg : ValuationConfig) :
    Except EngineError ValuationResult :=
  match Methods.lastRoundRun env data cfg with
  | .error e => .error (.calculationError e)
  | .ok o1 =>
    match Methods.compsRun env data cfg with
    | .error e => .error (.calculationError e)
    | .ok o2 =>
      let outcomes := [o1, o2]
      let results := outcomes.filterMap (·.result?)
      let skipped := outcomes.filterMap (·.skipped?)
      if results = [] then
        .error (.noValidMethods data.company.id
          (skipped.map fun s => (s.method.val, s.reason)))
      else
        match summarize cfg results with
        | none => .error (.calculationError "IndexError")
        | some summary =>
          .ok { company_id := data.company.id
                company_name := data.company.name
                valuation_date := env.today
                summary := summary
                method_results := results
                skipped_methods := skipped }

end VCAudit.Engine

namespace VCAudit

/-! ## Claim-modelled definitions and concrete inputs -/

/-- Modelled from the claim text of C2: the overall-confidence rule table,
as a function of the spread and the confidences of the executed methods
(spread ≤ high threshold → HIGH if any method was HIGH else MEDIUM;
spread ≤ medium threshold → LOW if any method was LOW, MEDIUM if all were
HIGH, else MEDIUM; otherwise LOW). -/
def claimConfidenceTable (cfg : ValuationConfig) (spread : ℚ)
    (confidences : List Confidence) : Confidence :=
  if spread ≤ cfg.high_confidence_spread then
    if confidences.contains .high then .high else .medium
  else if spread ≤ cfg.medium_confidence_spread then
    if confidences.contains .low then .low
    else if confidences.all (fun c => c = .high) then .medium
    else .medium
  else .low

/-- Modelled from the claim text of C2: the overall confidence computed
from the cross-method-comparison spread, which is `(max - min) / min`
taken as `0` when `min ≤ 0` (`_compare_methods`, `src/engine/engine.py`
lines 134-138). -/
def claimOverallConfidence (cfg : ValuationConfig)
    (results : List MethodResult) : Option Confidence :=
  match results with
  | [] => none
  | [r] => some r.confidence
  | r :: rest =>
    let min_val := (rest.map (·.value)).foldl min r.value
    let max_val := (rest.map (·.value)).foldl max r.value
    let spread : ℚ := if min_val > 0 then (max_val - min_val) / min_val else 0
    some (claimConfidenceTable cfg spread ((r :: rest).map (·.confidence)))

/-- The spread actually used by `_calculate_overall_confidence`
(`src/engine/engine.py` line 444): `(max - min) / min`, taken as `1` when
`min ≤ 0`. -/
def overallConfidenceSpread (results : List MethodResult) : ℚ :=
  match results with
  | [] => 0
  | r :: rest =>
    let min_val := (rest.map (·.value)).foldl min r.value
    let max_val := (rest.map (·.value)).foldl max r.value
    if min_val > 0 then (max_val - min_val) / min_val else 1

/-- Shorthand for a concrete `Date`. -/
def mkDate (year month ord : ℤ) : Date := ⟨year, month, ord⟩

/-- Three identical SaaS peers with EV/revenue multiple 5.0. -/
def saasPeers : List ComparableCompany :=
  [⟨"AAA", "Alpha", "saas", 1000, 5000, 5, none⟩,
   ⟨"BBB", "Beta", "saas", 1000, 5000, 5, none⟩,
   ⟨"CCC", "Gamma", "saas", 1000, 5000, 5, none⟩]

/-- C1 failing input, environment: a SaaS comparable set with three peers
at multiple 5.0; no market index needed. -/
def c1Env : DataEnv :=
  { today := mkDate 2026 10 820
    indices := []
    comparables := [("saas", ⟨"saas", mkDate 2026 10 800, saasPeers⟩)] }

/-- C1 failing input: a seed-stage company with trailing revenue 100 and a
single company-specific adjustment of factor 2. -/
def c1Data : CompanyData :=
  { company := { id := "c1", name := "C One", sector := "saas", stage := .seed }
    financials := { revenue_ttm := some 100 }
    last_round := none
    adjustments := [⟨"Strong team", 2, "Experienced founders"⟩] }

/-- C2 counterexample, environment: the NASDAQ index fell from 300 at the
round date to 100 today (a -2/3 move, which the 1.5 beta turns into a
market adjustment factor of exactly 0), plus the SaaS peer set. -/
def c2Env : DataEnv :=
  { today := mkDate 2026 10 820
    indices := [("NASDAQ",
      [⟨mkDate 2026 8 760, 300, "NASDAQ"⟩, ⟨mkDate 2026 10 820, 100, "NASDAQ"⟩])]
    comparables := [("saas", ⟨"saas", mkDate 2026 10 800, saasPeers⟩)] }

/-- C2 counterexample: revenue 100, a valid two-month-old funding round;
both methods execute (Last Round value 0, Comparables value 325, both
HIGH confidence). -/
def c2Data : CompanyData :=
  { company := { id := "c2", name := "C Two", sector := "saas", stage := .seed }
    financials := { revenue_ttm := some 100 }
    last_round := some ⟨mkDate 2026 8 760, 10000000, 12500000, 2500000, none⟩
    adjustments := [] }

/-- C4 concrete input: a company with no revenue figure and no last
round. -/
def c4Data : CompanyData :=
  { company := { id := "prerevenue_no_round", name := "Pre", sector := "saas",
                 stage := .seed }
    financials := {}
    last_round := none
    adjustments := [] }

/-- C4 counterexample, environment: the only NASDAQ point has value 0, so
the Last Round market adjustment divides by zero. -/
def c4zEnv : DataEnv :=
  { today := mkDate 2026 10 820
    indices := [("NASDAQ", [⟨mkDate 2026 9 790, 0, "NASDAQ"⟩])]
    comparables := [] }

/-- C4 counterexample: a company whose Last Round prerequisites pass (a
one-month-old round, index data present) but whose execution aborts. -/
def c4zData : CompanyData :=
  { company := { id := "zero_index", name := "Zero", sector := "saas",
                 stage := .seed }
    financials := {}
    last_round := some ⟨mkDate 2026 9 790, 10, 2, 12, none⟩
    adjustments := [] }

/-- C5 witness environment: one NASDAQ point at value 300. -/
def c5Env : DataEnv :=
  { today := mkDate 2026 10 820
    indices := [("NASDAQ", [⟨mkDate 2026 8 760, 300, "NASDAQ"⟩])]
    comparables := [] }

/-- C5 witness: a company whose last round is two calendar months old. -/
def c5Data : CompanyData :=
  { company := { id := "c5", name := "C Five", sector := "saas", stage := .seed }
    financials := {}
    last_round := some ⟨mkDate 2026 8 760, 10000000, 12500000, 2500000, none⟩
    adjustments := [] }

/-- C10 witness: two index points equidistant (30 days) from the target
ordinal 800. -/
def c10Points : List MarketIndex :=
  [⟨mkDate 2026 8 770, 250, "NASDAQ"⟩, ⟨mkDate 2026 10 830, 260, "NASDAQ"⟩]

end VCAudit

namespace VCAudit

/-! ## Helper lemmas: stable sorting and first minima -/

/-- The first element of a list attaining the minimal `rank`. -/
def firstMinBy {α : Type} (rank : α → ℕ) : List α → Option α
  | [] => none
  | a :: l =>
    match firstMinBy rank l with
    | none => some a
    | some m => if rank a ≤ rank m then some a else some m

theorem firstMinBy_cons_isSome {α : Type} (rank : α → ℕ) (a : α) (l : List α) :
    ∃ m, firstMinBy rank (a :: l) = some m := by
  simp only [firstMinBy]
  cases firstMinBy rank l with
  | none => exact ⟨a, rfl⟩
  | some m =>
    by_cases h : rank a ≤ rank m
    · exact ⟨a, by simp [h]⟩
    · exact ⟨m, by simp [h]⟩

/-- A stable sort by a natural-number rank starts with the first element
of minimal rank. -/
theorem head_mergeSort_rank {α : Type} (rank : α → ℕ) (l : List α) :
    (l.mergeSort (fun a b => rank a ≤ rank b)).head? = firstMinBy rank l := by
  have trans : ∀ a b c : α, (fun a b => decide (rank a ≤ rank b)) a b →
      (fun a b => decide (rank a ≤ rank b)) b c →
      (fun a b => decide (rank a ≤ rank b)) a c := by
    intro a b c hab hbc
    simp only [decide_eq_true_eq] at *
    omega
  have total : ∀ a b : α, ((fun a b => decide (rank a ≤ rank b)) a b ||
      (fun a b => decide (rank a ≤ rank b)) b a) := by
    intro a b
    simp only [Bool.or_eq_true, decide_eq_true_eq]
    omega
  induction l with
  | nil => simp [firstMinBy, List.mergeSort_nil]
  | cons a l ih =>
    obtain ⟨l₁, l₂, h1, h2, h3⟩ := List.mergeSort_cons trans total a l
    cases l₁ with
    | nil =>
      simp only [List.nil_append] at h1 h2
      rw [h1]
      rw [h2] at ih
      cases hm : firstMinBy rank l with
      | none =>
        simp [firstMinBy, hm]
      | some m =>
        rw [hm] at ih
        have hsorted := List.sorted_mergeSort trans total (a :: l)
        rw [h1] at hsorted
        have hmem : m ∈ l₂ := by
          cases l₂ with
          | nil => simp at ih
          | cons x xs =>
            simp only [List.head?_cons, Option.some.injEq] at ih
            simp [ih]
        have hle : rank a ≤ rank m := by
          have := (List.pairwise_cons.mp hsorted).1 m hmem
          simpa using this
        simp [firstMinBy, hm, hle]
    | cons x l₁' =>
      have hx : x ∈ x :: l₁' := List.mem_cons_self _ _
      have hax := h3 x hx
      simp only [Bool.not_eq_true', decide_eq_false_iff_not] at hax
      rw [h1]
      rw [h2] at ih
      simp only [List.cons_append, List.head?_cons] at ih ⊢
      cases hm : firstMinBy rank l with
      | none => rw [hm] at ih; simp at ih
      | some m =>
        rw [hm] at ih
        simp only [Option.some.injEq] at ih
        subst ih
        simp [firstMinBy, hm, if_neg hax]

theorem firstMinBy_rank {α : Type} (rank : α → ℕ) (l : List α)
    (m : α) (h : firstMinBy rank l = some m) :
    rank m = ((l.map rank).min?).getD 0 := by
  induction l generalizing m with
  | nil => simp [firstMinBy] at h
  | cons a l ih =>
    simp only [firstMinBy] at h
    cases hm : firstMinBy rank l with
    | none =>
      rw [hm] at h
      simp only [Option.some.injEq] at h
      subst h
      have hne : l = [] := by
        cases l with
        | nil => rfl
        | cons b t =>
          obtain ⟨m', hm'⟩ := firstMinBy_cons_isSome rank b t
          rw [hm'] at hm
          cases hm
      subst hne
      simp
    | some m' =>
      rw [hm] at h
      have hne : l ≠ [] := by
        intro hl; subst hl; simp [firstMinBy] at hm
      obtain ⟨v, hv⟩ : ∃ v, (l.map rank).min? = some v := by
        cases hmin : (l.map rank).min? with
        | none =>
          rw [List.min?_eq_none_iff, List.map_eq_nil_iff] at hmin
          exact absurd hmin hne
        | some v => exact ⟨v, rfl⟩
      have ihm' := ih m' hm
      rw [hv] at ihm'
      simp only [Option.getD_some] at ihm'
      have hcons : ((a :: l).map rank).min? = some (min (rank a) v) := by
        simp [List.min?_cons, hv]
      rw [hcons]
      simp only [Option.getD_some]
      have h' : (if rank a ≤ rank m' then some a else some m') = some m := h
      by_cases hle : rank a ≤ rank m'
      · rw [if_pos hle] at h'
        simp only [Option.some.injEq] at h'
        subst h'
        rcases min_cases (rank a) v with ⟨h1, _⟩ | ⟨h1, _⟩ <;> omega
      · rw [if_neg hle] at h'
        simp only [Option.some.injEq] at h'
        subst h'
        rcases min_cases (rank a) v with ⟨h1, _⟩ | ⟨h1, _⟩ <;> omega

theorem firstMinBy_eq_find? {α : Type} (rank : α → ℕ) (l : List α) :
    firstMinBy rank l =
      l.find? fun a => rank a == ((l.map rank).min?).getD 0 := by
  induction l with
  | nil => simp [firstMinBy]
  | cons a l ih =>
    cases hl : l with
    | nil => simp [firstMinBy, List.find?]
    | cons b t =>
      rw [← hl]
      have hne : l ≠ [] := by simp [hl]
      obtain ⟨v, hv⟩ : ∃ v, (l.map rank).min? = some v := by
        cases hmin : (l.map rank).min? with
        | none =>
          rw [List.min?_eq_none_iff, List.map_eq_nil_iff] at hmin
          exact absurd hmin hne
        | some v => exact ⟨v, rfl⟩
      obtain ⟨m, hm⟩ : ∃ m, firstMinBy rank l = some m := by
        rw [hl]; exact firstMinBy_cons_isSome rank b t
      have hrm : rank m = v := by
        have := firstMinBy_rank rank l m hm
        rw [hv] at this
        simpa using this
      have hcons : ((a :: l).map rank).min? = some (min (rank a) v) := by
        simp [List.min?_cons, hv]
      have hgetd : (((a :: l).map rank).min?).getD 0 = min (rank a) v := by
        rw [hcons]; rfl
      rw [hv] at ih
      simp only [Option.getD_some] at ih
      simp only [firstMinBy, hm]
      by_cases hle : rank a ≤ rank m
      · have hmin : min (rank a) v = rank a := by omega
        have hpred : (rank a == (((a :: l).map rank).min?).getD 0) = true := by
          rw [hgetd, hmin]; simp
        rw [List.find?_cons, hpred]
        simp [hle]
      · have hmin : min (rank a) v = v := by omega
        have hpred : (rank a == (((a :: l).map rank).min?).getD 0) = false := by
          rw [hgetd, hmin]
          simp only [beq_eq_false_iff_ne, ne_eq]
          omega
        rw [List.find?_cons, hpred]
        simp only [if_neg hle]
        have hpredeq :
            (fun x => rank x == (((a :: l).map rank).min?).getD 0) =
              (fun x => rank x == v) := by
          funext x
          rw [hgetd, hmin]
        rw [hpredeq, ← ih, hm]

end VCAudit

namespace VCAudit

/-- A list that is already sorted is unchanged by `pySorted`. -/
theorem pySorted_of_pairwise {l : List ℚ} (h : l.Pairwise (· ≤ ·)) :
    pySorted l = l := by
  apply List.mergeSort_of_sorted
  exact h.imp (by intro a b hab; simpa using hab)

/-- The function `pySorted` preserves length. -/
theorem pySorted_length (l : List ℚ) : (pySorted l).length = l.length := by
  unfold pySorted
  exact List.length_mergeSort l

/-- A confidence list in which every entry is HIGH contains no LOW. -/
theorem not_contains_low_of_all_high (cs : List Confidence)
    (h : cs.all (fun c => c = .high) = true) : cs.contains .low = false := by
  simp only [List.all_eq_true, decide_eq_true_eq] at h
  rw [Bool.eq_false_iff]
  intro hc
  have hmem : Confidence.low ∈ cs := by
    simpa using hc
  have := h _ hmem
  cases this

end VCAudit

namespace VCAudit

/-! ## Claim theorems -/

/-- Claim C9 (code_bug evidence): `MethodResult` as declared in
`src/models.py` lines 183-189 has no confidence-explanation field — its
fields are exactly `method`, `value`, `confidence`, `audit_trail`,
`warnings` — and the engine-registered `src/methods/last_round.py`
constructs it without one; yet the evolved method implementations in
`src/valuation/` pass a `confidence_explanation` keyword (which pydantic,
with its default `extra="ignore"`, silently drops), and
`src/services/valuations.py` reads `mr.confidence_explanation` from every
persisted result.  So no produced `MethodResult` carries the
confidence-explanation string the spec describes. -/
theorem claim_C9_no_confidence_explanation_field :
    methodResultFieldNames =
      ["method", "value", "confidence", "audit_trail", "warnings"] ∧
    "confidence_explanation" ∉ methodResultFieldNames ∧
    "confidence_explanation" ∉ methodsLastRoundResultKwargs ∧
    "confidence_explanation" ∈ valuationLastRoundResultKwargs ∧
    "confidence_explanation" ∈ valuationCompsResultKwargs ∧
    "confidence_explanation" ∈ serviceMethodResultReads := by
  refine ⟨rfl, ?_, ?_, ?_, ?_, ?_⟩ <;> decide

/-- Claim C8: `round_decimal` rounds a tie (a digit of exactly 5 at the
cut-off, i.e. `|x| * 10^places` has fractional part exactly one half)
away from zero. -/
theorem claim_C8_round_half_up (x : ℚ) (places : ℕ) (k : ℤ)
    (h : |x| * 10 ^ places = k + 1/2) :
    round_decimal x places = (if x < 0 then -1 else 1) * ((k + 1 : ℚ) / 10 ^ places) := by
  have hm : (0 : ℚ) < 10 ^ places := by positivity
  have hx0 : (0 : ℚ) ≤ |x| * 10 ^ places := by positivity
  unfold round_decimal
  by_cases hneg : x < 0
  · rw [if_pos hneg, if_pos hneg]
    have habs : |x| = -x := abs_of_neg hneg
    rw [habs] at h
    have hfloor : ⌊-x * 10 ^ places + 1/2⌋ = k + 1 := by
      have : -x * 10 ^ places + 1/2 = ((k + 1 : ℤ) : ℚ) := by
        rw [h]; push_cast; ring
      rw [this, Int.floor_intCast]
    rw [hfloor]
    push_cast
    ring
  · rw [if_neg hneg, if_neg hneg]
    have habs : |x| = x := abs_of_nonneg (le_of_not_lt hneg)
    rw [habs] at h
    have hfloor : ⌊x * 10 ^ places + 1/2⌋ = k + 1 := by
      have : x * 10 ^ places + 1/2 = ((k + 1 : ℤ) : ℚ) := by
        rw [h]; push_cast; ring
      rw [this, Int.floor_intCast]
    rw [hfloor]
    push_cast
    ring

/-- Claim C8, witness: `round_decimal(2.345, 2) = 2.35` (not 2.34). -/
theorem claim_C8_witness : round_decimal (2345/1000) 2 = 235/100 := by
  have h : |((2345 : ℚ)/1000)| * 10 ^ 2 = (234 : ℤ) + 1/2 := by
    rw [abs_of_nonneg (by norm_num)]
    norm_num
  have := claim_C8_round_half_up (2345/1000) 2 234 h
  rw [this, if_neg (by norm_num)]
  norm_num

/-- Claim C6: constructing a `LastRound` whose `valuation_post` differs
from `valuation_pre + amount_raised` by strictly more than 0.01 fails
with a validation error, and — whenever the other field validators pass —
construction succeeds exactly on `|difference| ≤ 0.01`, returning the
round unchanged (never silently corrected). -/
theorem claim_C6_post_money_validation (today : Date) (r : LastRound) :
    (|r.valuation_post - (r.valuation_pre + r.amount_raised)| > 1/100 →
      ∃ e, validateLastRound today r = .error e) ∧
    (0 < r.valuation_pre → 0 < r.valuation_post → 0 < r.amount_raised →
      r.date.ord ≤ today.ord →
      |r.valuation_post - (r.valuation_pre + r.amount_raised)| ≤ 1/100 →
      validateLastRound today r = .ok r) := by
  constructor
  · intro hgt
    unfold validateLastRound
    split_ifs with h1 h2 h3 h4 h5
    all_goals first
      | exact ⟨_, rfl⟩
      | exact absurd hgt (by assumption)
  · intro h1 h2 h3 h4 h5
    unfold validateLastRound
    split_ifs with g1 g2 g3 g4 g5
    all_goals first
      | rfl
      | omega
      | linarith

/-- Claim C6, witness: a consistent round (post = pre + raised) with
positive amounts and a past date validates successfully, and an
inconsistent one (post off by 1.0) is rejected. -/
theorem claim_C6_witness :
    validateLastRound (mkDate 2026 10 820)
      ⟨mkDate 2026 8 760, 10000000, 12500000, 2500000, none⟩ =
      .ok ⟨mkDate 2026 8 760, 10000000, 12500000, 2500000, none⟩ ∧
    ∃ e, validateLastRound (mkDate 2026 10 820)
      ⟨mkDate 2026 8 760, 10000000, 12500001, 2500000, none⟩ = .error e := by
  constructor
  · exact (claim_C6_post_money_validation (mkDate 2026 10 820) _).2
      (by norm_num) (by norm_num) (by norm_num) (by simp [mkDate])
      (by norm_num)
  · exact (claim_C6_post_money_validation (mkDate 2026 10 820) _).1
      (by norm_num)

end VCAudit

namespace VCAudit

/-- The peer multiples of `saasPeers` have median 5. -/
theorem median_saasPeers : median [(5 : ℚ), 5, 5] = .ok 5 := by
  have hs : pySorted [(5 : ℚ), 5, 5] = [5, 5, 5] :=
    pySorted_of_pairwise (by norm_num [List.pairwise_cons])
  unfold median
  rw [if_neg (by simp)]
  simp [hs]

/-- Claim C1 (code_bug evidence): on a company with revenue 100, seed
stage (35% discount), peers at multiple 5.0 and a single adjustment of
factor 2, the engine-registered `ComparablesMethod.execute` of
`src/methods/comps.py` passes its prerequisites but returns 325 — it
never applies the company-specific adjustments — while the evolved
`src/valuation/comps.py` implementation, which applies the shared
adjustment helper to `base_value = revenue × adjusted_multiple` exactly
as the spec describes, returns 650 = round(100 × 3.25 × 2). -/
theorem claim_C1_comparables_ignores_adjustments :
    Methods.compsCheckPrerequisites c1Env c1Data defaultConfig = none ∧
    (Methods.compsExecute c1Env c1Data defaultConfig).map (·.value) = .ok 325 ∧
    (Valuation.compsExecute c1Env c1Data defaultConfig).map (·.value) = .ok 650 ∧
    round_decimal (100 * (5 * (1 - 35/100)) * 2) 0 = 650 ∧
    (325 : ℚ) ≠ 650 := by
  refine ⟨?_, ?_, ?_, ?_, by norm_num⟩
  · simp [Methods.compsCheckPrerequisites, c1Env, c1Data, saasPeers,
      DataEnv.load_comparables, defaultConfig, mkDate]
  · simp only [Methods.compsExecute, c1Env, c1Data, saasPeers,
      DataEnv.load_comparables, defaultConfig, mkDate, List.lookup,
      List.map_cons, List.map_nil, Methods.selectMultiple,
      Methods.calculatePrivateDiscount, Methods.compsDetermineConfidence,
      beq_self_eq_true, if_true]
    rw [median_saasPeers]
    simp only [round_decimal, Except.map]
    norm_num
  · simp only [Valuation.compsExecute, c1Env, c1Data, saasPeers,
      DataEnv.load_comparables, defaultConfig, mkDate, List.lookup,
      List.map_cons, List.map_nil, Methods.selectMultiple,
      Methods.calculatePrivateDiscount, Methods.compsDetermineConfidence,
      Valuation.applyCompanyAdjustments, beq_self_eq_true, if_true]
    rw [median_saasPeers]
    simp only [round_decimal, Except.map]
    norm_num
  · unfold round_decimal
    norm_num

end VCAudit

namespace VCAudit

/-- The nearest-index lookup succeeds on a non-empty series. -/
theorem getClosestIndexValue_isSome (pts : List MarketIndex) (d : Date)
    (h : pts ≠ []) : ∃ v, Methods.getClosestIndexValue pts d = some v := by
  cases pts with
  | nil => exact absurd rfl h
  | cons a l => exact ⟨_, rfl⟩

/-- Claim C5: for a `CompanyData` with a `LastRound`, classification is by
the whole-calendar-month age: an age strictly above
`max_round_age_months = 18` makes `run()` skip the method with the
too-old reason (regardless of the index data); otherwise — given the
remaining prerequisite (non-empty NASDAQ series) and a non-zero nearest
index value — the method executes, with confidence HIGH for age ≤ 6,
MEDIUM for 6 < age ≤ `stale_round_threshold_months = 12`, and LOW for
12 < age ≤ 18. -/
theorem claim_C5_last_round_age_classification (env : DataEnv)
    (data : CompanyData) (lr : LastRound) (hlr : data.last_round = some lr) :
    (Methods.monthsOld env.today lr.date > 18 →
      Methods.lastRoundRun env data defaultConfig =
        .ok (.skipped ⟨.last_round,
          Methods.lastRoundTooOldReason (Methods.monthsOld env.today lr.date) 18⟩)) ∧
    (Methods.monthsOld env.today lr.date ≤ 18 →
      ∀ pts, env.get_index "NASDAQ" = some pts → pts ≠ [] →
      ∀ ri, Methods.getClosestIndexValue pts lr.date = some ri → ri ≠ 0 →
      ∃ r, Methods.lastRoundRun env data defaultConfig = .ok (.result r) ∧
        r.method = .last_round ∧
        r.confidence =
          (if Methods.monthsOld env.today lr.date ≤ 6 then .high
           else if Methods.monthsOld env.today lr.date ≤ 12 then .medium
           else .low)) := by
  constructor
  · intro hold
    have hpre : Methods.lastRoundCheckPrerequisites env data defaultConfig =
        some (Methods.lastRoundTooOldReason (Methods.monthsOld env.today lr.date) 18) := by
      simp only [Methods.lastRoundCheckPrerequisites, hlr, defaultConfig]
      rw [if_pos hold]
    simp [Methods.lastRoundRun, hpre]
  · intro hage pts hpts hne ri hri hri0
    obtain ⟨ti, hti⟩ := getClosestIndexValue_isSome pts env.today hne
    have hpre : Methods.lastRoundCheckPrerequisites env data defaultConfig = none := by
      simp only [Methods.lastRoundCheckPrerequisites, hlr, defaultConfig]
      rw [if_neg (by omega), hpts]
      simp [hne]
    obtain ⟨r, hrun, hm, hc⟩ : ∃ r,
        Methods.lastRoundRun env data defaultConfig = .ok (.result r) ∧
        r.method = .last_round ∧
        r.confidence = Methods.lastRoundDetermineConfidence defaultConfig
          (Methods.monthsOld env.today lr.date) := by
      simp only [Methods.lastRoundRun, hpre, Methods.lastRoundExecute, hlr,
        hpts, hri, hti, Except.map]
      rw [if_neg hri0]
      exact ⟨_, rfl, rfl, rfl⟩
    refine ⟨r, hrun, hm, ?_⟩
    rw [hc]
    simp only [Methods.lastRoundDetermineConfidence, defaultConfig]

/-- Claim C5, witness: a two-month-old round with a non-empty index series
executes with HIGH confidence. -/
theorem claim_C5_witness :
    ∃ r, Methods.lastRoundRun c5Env c5Data defaultConfig = .ok (.result r) ∧
      r.method = .last_round ∧ r.confidence = .high := by
  have h := (claim_C5_last_round_age_classification c5Env c5Data
      ⟨mkDate 2026 8 760, 10000000, 12500000, 2500000, none⟩ rfl).2
  have hage : Methods.monthsOld c5Env.today
      (⟨mkDate 2026 8 760, 10000000, 12500000, 2500000, none⟩ : LastRound).date = 2 := by
    norm_num [Methods.monthsOld, c5Env, mkDate]
  obtain ⟨r, hrun, hm, hc⟩ :=
    h (by simp only [hage]; norm_num) [⟨mkDate 2026 8 760, 300, "NASDAQ"⟩] rfl
      (by simp) 300 rfl (by norm_num)
  refine ⟨r, hrun, hm, ?_⟩
  rw [hc, hage]
  norm_num

end VCAudit

namespace VCAudit

/-- Claim C3: for a non-empty executed-result list (in run order, which is
registration order), the primary chosen by the engine — the head of the stable sort
by confidence rank — is the first result whose confidence rank is minimal
(HIGH < MEDIUM < LOW); numeric values play no part. -/
theorem claim_C3_primary_selection (results : List MethodResult)
    (h : results ≠ []) :
    Engine.primaryOf results =
      results.find? fun r =>
        Engine.confidenceOrder r.confidence ==
          ((results.map fun q => Engine.confidenceOrder q.confidence).min?).getD 0 := by
  have h1 := head_mergeSort_rank
    (fun r : MethodResult => Engine.confidenceOrder r.confidence) results
  have h2 := firstMinBy_eq_find?
    (fun r : MethodResult => Engine.confidenceOrder r.confidence) results
  unfold Engine.primaryOf Engine.sortedResults
  exact h1.trans h2

/-- Claim C3, witness: with MEDIUM `last_round` (value 100) before HIGH
`comparables` (value 200), the HIGH method wins regardless of order and
value. -/
theorem claim_C3_witness :
    Engine.primaryOf
      [⟨.last_round, 100, .medium, []⟩, ⟨.comparables, 200, .high, []⟩] =
      some ⟨.comparables, 200, .high, []⟩ := by
  rw [claim_C3_primary_selection _ (by simp)]
  rfl

/-- Python `min(·, key=...)` keeps the running best on ties, so over a
date-sorted list the fold result is minimal for the key, and the
chronologically earliest among the minimizers. -/
theorem foldl_min_spec (key : MarketIndex → ℤ) :
    ∀ (l : List MarketIndex) (a : MarketIndex),
      List.Pairwise (fun x y : MarketIndex => x.date.ord ≤ y.date.ord) (a :: l) →
      (l.foldl (fun best x => if key x < key best then x else best) a = a ∨
        key (l.foldl (fun best x => if key x < key best then x else best) a) < key a) ∧
      l.foldl (fun best x => if key x < key best then x else best) a ∈ a :: l ∧
      (∀ q ∈ a :: l,
        key (l.foldl (fun best x => if key x < key best then x else best) a) ≤ key q) ∧
      (∀ q ∈ a :: l,
        key q = key (l.foldl (fun best x => if key x < key best then x else best) a) →
        (l.foldl (fun best x => if key x < key best then x else best) a).date.ord ≤
          q.date.ord)
  | [], a, _ => by simp
  | b :: t, a, hp => by
    rw [List.foldl_cons]
    obtain ⟨hab, hpbt⟩ := List.pairwise_cons.mp hp
    have hadate : a.date.ord ≤ b.date.ord := hab b (List.mem_cons_self _ _)
    obtain ⟨hbt, hpt⟩ := List.pairwise_cons.mp hpbt
    by_cases hba : key b < key a
    · rw [if_pos hba]
      have hp' : List.Pairwise (fun x y : MarketIndex => x.date.ord ≤ y.date.ord)
          (b :: t) := hpbt
      obtain ⟨ih1, ih2, ih3, ih4⟩ := foldl_min_spec key t b hp'
      refine ⟨?_, ?_, ?_, ?_⟩
      · right
        rcases ih1 with h | h
        · rw [h]; exact hba
        · exact h.trans hba
      · exact List.mem_cons_of_mem a ih2
      · intro q hq
        rcases List.mem_cons.mp hq with rfl | hq'
        · have : key (t.foldl (fun best x => if key x < key best then x else best) b)
              ≤ key b := by
            rcases ih1 with h | h
            · rw [h]
            · exact le_of_lt h
          omega
        · exact ih3 q hq'
      · intro q hq hkey
        rcases List.mem_cons.mp hq with rfl | hq'
        · exfalso
          have hlt : key (t.foldl (fun best x => if key x < key best then x else best) b)
              < key q := by
            rcases ih1 with h | h
            · rw [h]; exact hba
            · exact h.trans hba
          omega
        · exact ih4 q hq' hkey
    · rw [if_neg hba]
      have hp' : List.Pairwise (fun x y : MarketIndex => x.date.ord ≤ y.date.ord)
          (a :: t) := by
        rw [List.pairwise_cons]
        exact ⟨fun x hx => hab x (List.mem_cons_of_mem b hx), hpt⟩
      obtain ⟨ih1, ih2, ih3, ih4⟩ := foldl_min_spec key t a hp'
      refine ⟨ih1, ?_, ?_, ?_⟩
      · rcases List.mem_cons.mp ih2 with h | h
        · rw [h]; exact List.mem_cons_self _ _
        · exact List.mem_cons_of_mem a (List.mem_cons_of_mem b h)
      · intro q hq
        rcases List.mem_cons.mp hq with rfl | hq'
        · exact ih3 q (List.mem_cons_self _ _)
        · rcases List.mem_cons.mp hq' with rfl | hq''
          · have : key (t.foldl (fun best x => if key x < key best then x else best) a)
                ≤ key a := by
              rcases ih1 with h | h
              · rw [h]
              · exact le_of_lt h
            omega
          · exact ih3 q (List.mem_cons_of_mem a hq'')
      · intro q hq hkey
        rcases List.mem_cons.mp hq with rfl | hq'
        · exact ih4 q (List.mem_cons_self _ _) hkey
        · rcases List.mem_cons.mp hq' with rfl | hq''
          · rcases ih1 with h | h
            · rw [h]; exact hadate
            · exfalso
              have : key (t.foldl (fun best x => if key x < key best then x else best) a)
                  < key a := h
              omega
          · exact ih4 q (List.mem_cons_of_mem a hq'') hkey

/-- Claim C10: on a non-empty, date-ascending index series (as
`get_index` returns it), `_get_closest_index_value` returns the value of
the point with minimal absolute day-distance to the target, and when two
points are equidistant it returns the chronologically earlier one. -/
theorem claim_C10_nearest_index (pts : List MarketIndex) (target : Date)
    (hne : pts ≠ [])
    (hsort : List.Pairwise (fun x y : MarketIndex => x.date.ord ≤ y.date.ord) pts) :
    ∃ c, Methods.pyMinBy (fun x => |x.date.ord - target.ord|) pts = some c ∧
      Methods.getClosestIndexValue pts target = some c.value ∧
      c ∈ pts ∧
      (∀ q ∈ pts, |c.date.ord - target.ord| ≤ |q.date.ord - target.ord|) ∧
      (∀ q ∈ pts, |q.date.ord - target.ord| = |c.date.ord - target.ord| →
        c.date.ord ≤ q.date.ord) := by
  cases pts with
  | nil => exact absurd rfl hne
  | cons a l =>
    obtain ⟨_, hmem, hmin, hdate⟩ :=
      foldl_min_spec (fun x => |x.date.ord - target.ord|) l a hsort
    exact ⟨_, rfl, rfl, hmem, hmin, hdate⟩

/-- Claim C10, witness: two points 30 days on either side of the target;
the earlier one (value 250) is returned. -/
theorem claim_C10_witness :
    Methods.getClosestIndexValue c10Points (mkDate 2026 9 800) = some 250 := by
  obtain ⟨c, hpm, hgc, -, -, -⟩ :=
    claim_C10_nearest_index c10Points (mkDate 2026 9 800) (by simp [c10Points])
      (by decide)
  have hc : c = ⟨mkDate 2026 8 770, 250, "NASDAQ"⟩ := by
    have : Methods.pyMinBy (fun x => |x.date.ord - (mkDate 2026 9 800).ord|)
        c10Points = some ⟨mkDate 2026 8 770, 250, "NASDAQ"⟩ := by
      simp [Methods.pyMinBy, c10Points, mkDate]
    rw [this] at hpm
    exact (Option.some.inj hpm).symm
  rw [hgc, hc]

end VCAudit

namespace VCAudit

/-- Lemma: `percentile(values, 50)` equals `median(values)` on every non-empty
sequence: the float rank `0.5 * (n - 1)` is exact, and linear
interpolation at fraction 0 (odd length) or 1/2 (even length) reproduces
the median. -/
theorem percentile50_eq_median (values : List ℚ) (hne : values ≠ []) :
    percentile values 50 = median values := by
  have hpos : 0 < values.length := List.length_pos.mpr hne
  have hlen : (pySorted values).length = values.length := pySorted_length values
  simp only [percentile, median]
  rw [if_neg hne, if_neg hne]
  rw [if_neg (show ¬¬(0 ≤ (50:ℤ) ∧ (50:ℤ) ≤ 100) by norm_num)]
  by_cases h1 : (pySorted values).length = 1
  · rw [if_pos h1]
    have hodd : ¬((pySorted values).length % 2 = 0) := by omega
    rw [if_neg hodd]
    have : (pySorted values).length / 2 = 0 := by omega
    rw [this]
  · rw [if_neg h1]
    have hn1 : 1 ≤ (pySorted values).length := by omega
    rcases Nat.even_or_odd' (pySorted values).length with ⟨m, hm | hm⟩
    · -- even length, n = 2 * m with m ≥ 1
      have hm1 : 1 ≤ m := by omega
      have hrank : ((50:ℤ) : ℚ) / 100 * (((pySorted values).length : ℚ) - 1) =
          (m : ℚ) - 1/2 := by
        rw [hm]; push_cast; ring
      rw [hrank]
      have hfl : ⌊(m : ℚ) - 1/2⌋ = (m : ℤ) - 1 := by
        rw [Int.floor_eq_iff]
        constructor
        · push_cast; linarith
        · push_cast; linarith
      rw [hfl]
      have ht : ((m : ℤ) - 1).toNat = m - 1 := by omega
      rw [ht]
      have hcast : ((m - 1 : ℕ) : ℚ) = (m : ℚ) - 1 := by
        have h := Nat.cast_sub (R := ℚ) hm1
        simpa using h
      have hmin : min (m - 1 + 1) ((pySorted values).length - 1) = m := by
        rw [hm]
        have h2 : m - 1 + 1 = m := by omega
        rw [h2]
        exact Nat.min_eq_left (by omega)
      rw [hmin]
      rw [if_pos (by omega : (pySorted values).length % 2 = 0)]
      have hdiv : (pySorted values).length / 2 = m := by omega
      rw [hdiv, hcast]
      congr 1
      ring
    · -- odd length, n = 2 * m + 1
      have hrank : ((50:ℤ) : ℚ) / 100 * (((pySorted values).length : ℚ) - 1) =
          (m : ℚ) := by
        rw [hm]; push_cast; ring
      rw [hrank, Int.floor_natCast]
      have ht : ((m : ℤ)).toNat = m := by omega
      rw [ht]
      rw [if_neg (by omega : ¬((pySorted values).length % 2 = 0))]
      have hdiv : (pySorted values).length / 2 = m := by omega
      rw [hdiv]
      congr 1
      ring

/-- Claim C7: `median` is the conventional sorted-midpoint definition
(middle element for odd length, mean of the two middle elements for even
length); `percentile(values, 50) = median(values)` on every non-empty
sequence; both raise on the empty sequence; and `percentile` raises on a
percentile outside `[0, 100]`. -/
theorem claim_C7_median_percentile :
    (∀ values : List ℚ, values ≠ [] →
      ((pySorted values).length % 2 = 1 →
        median values =
          .ok ((pySorted values).getD (((pySorted values).length - 1) / 2) 0)) ∧
      ((pySorted values).length % 2 = 0 →
        median values =
          .ok (((pySorted values).getD ((pySorted values).length / 2 - 1) 0 +
            (pySorted values).getD ((pySorted values).length / 2) 0) / 2))) ∧
    (∀ values : List ℚ, values ≠ [] → percentile values 50 = median values) ∧
    (∃ e, median ([] : List ℚ) = .error e) ∧
    (∀ p : ℤ, ∃ e, percentile ([] : List ℚ) p = .error e) ∧
    (∀ (values : List ℚ) (p : ℤ), p < 0 ∨ 100 < p →
      ∃ e, percentile values p = .error e) := by
  refine ⟨?_, percentile50_eq_median, ⟨_, rfl⟩, fun p => ⟨_, rfl⟩, ?_⟩
  · intro values hne
    constructor
    · intro hodd
      simp only [median]
      rw [if_neg hne, if_neg (by omega : ¬((pySorted values).length % 2 = 0))]
      have : ((pySorted values).length - 1) / 2 = (pySorted values).length / 2 := by
        omega
      rw [this]
    · intro heven
      simp only [median]
      rw [if_neg hne, if_pos heven]
  · intro values p hp
    simp only [percentile]
    by_cases hv : values = []
    · rw [if_pos hv]; exact ⟨_, rfl⟩
    · rw [if_neg hv, if_pos (by omega : ¬(0 ≤ p ∧ p ≤ 100))]
      exact ⟨_, rfl⟩

unseal List.merge List.mergeSort in
theorem pySorted_eval_312 : pySorted [(3 : ℚ), 1, 2] = [1, 2, 3] := by decide

unseal List.merge List.mergeSort in
theorem pySorted_eval_1234 : pySorted [(1 : ℚ), 2, 3, 4] = [1, 2, 3, 4] := by
  decide

/-- Claim C7, witness: on `[3, 1, 2]` the median is 2 and
`percentile(·, 50)` agrees; the even-length list `[1, 2, 3, 4]` has
median 5/2. -/
theorem claim_C7_witness :
    percentile [(3 : ℚ), 1, 2] 50 = median [(3 : ℚ), 1, 2] ∧
    median [(3 : ℚ), 1, 2] = .ok 2 ∧
    median [(1 : ℚ), 2, 3, 4] = .ok (5/2) := by
  have hs1 := pySorted_eval_312
  have hs2 := pySorted_eval_1234
  refine ⟨claim_C7_median_percentile.2.1 [(3 : ℚ), 1, 2] (by simp), ?_, ?_⟩
  · have h := (claim_C7_median_percentile.1 [(3 : ℚ), 1, 2] (by simp)).1
      (by rw [hs1]; decide)
    rw [h, hs1]
    rfl
  · have h := (claim_C7_median_percentile.1 [(1 : ℚ), 2, 3, 4] (by simp)).2
      (by rw [hs2]; decide)
    rw [h, hs2]
    norm_num

end VCAudit

namespace VCAudit

/-- Claim C2 (amended): with two or more executed methods,
`_calculate_overall_confidence` equals the rule table of the claim applied to
the spread `(max − min) / min` taken as 1 — not 0 — when `min ≤ 0`
(so a non-positive minimum value always lands in the `spread > medium`
row, i.e. LOW). -/
theorem claim_C2_overall_confidence_amended (cfg : ValuationConfig)
    (r : MethodResult) (rest : List MethodResult) (h : rest ≠ []) :
    Engine.calculateOverallConfidence cfg (r :: rest) =
      some (claimConfidenceTable cfg (overallConfidenceSpread (r :: rest))
        ((r :: rest).map (·.confidence))) := by
  cases rest with
  | nil => exact absurd rfl h
  | cons x t =>
    simp only [Engine.calculateOverallConfidence, claimConfidenceTable,
      overallConfidenceSpread, List.map_cons, List.tail_cons]
    split_ifs with h1 h2 h3 h4 h5 h6 <;> try rfl
    all_goals
      exfalso
    · exact absurd (not_contains_low_of_all_high _ (by assumption))
        (by simp_all)
    · exact absurd (not_contains_low_of_all_high _ (by assumption))
        (by simp_all)

/-- Claim C2, counterexample: a run in which Last Round yields value 0
(a −2/3 market move times beta 1.5 gives a zero market-adjustment factor)
and Comparables yields 325, both with HIGH confidence.  The overall
confidence of the engine is LOW (its spread fallback for `min ≤ 0` is 1),
while the rule of the claim — the cross-method-comparison spread, 0 when
`min ≤ 0` — would give HIGH. -/
theorem claim_C2_counterexample :
    Engine.runWithData c2Env c2Data defaultConfig = .ok
      { company_id := "c2", company_name := "C Two",
        valuation_date := c2Env.today
        summary := { primary_value := 0, primary_method := .last_round,
                     value_range_low := some 0, value_range_high := some 325,
                     overall_confidence := .low }
        method_results := [⟨.last_round, 0, .high, []⟩,
                           ⟨.comparables, 325, .high, []⟩]
        skipped_methods := [] } ∧
    claimOverallConfidence defaultConfig
      [⟨.last_round, 0, .high, []⟩, ⟨.comparables, 325, .high, []⟩] =
      some .high := by
  constructor
  · have hpre1 : Methods.lastRoundCheckPrerequisites c2Env c2Data defaultConfig
        = none := by
      simp [Methods.lastRoundCheckPrerequisites, c2Env, c2Data, mkDate,
        Methods.monthsOld, defaultConfig, DataEnv.get_index, List.lookup]
    have hrun1 : Methods.lastRoundRun c2Env c2Data defaultConfig =
        .ok (.result ⟨.last_round, 0, .high, []⟩) := by
      have hlr : c2Data.last_round =
          some ⟨mkDate 2026 8 760, 10000000, 12500000, 2500000, none⟩ := rfl
      have hidx : c2Env.get_index "NASDAQ" =
          some [⟨mkDate 2026 8 760, 300, "NASDAQ"⟩,
                ⟨mkDate 2026 10 820, 100, "NASDAQ"⟩] := rfl
      have hcl1 : Methods.getClosestIndexValue
          [⟨mkDate 2026 8 760, 300, "NASDAQ"⟩, ⟨mkDate 2026 10 820, 100, "NASDAQ"⟩]
          (mkDate 2026 8 760) = some 300 := by
        simp [Methods.getClosestIndexValue, Methods.pyMinBy, mkDate]
      have hcl2 : Methods.getClosestIndexValue
          [⟨mkDate 2026 8 760, 300, "NASDAQ"⟩, ⟨mkDate 2026 10 820, 100, "NASDAQ"⟩]
          c2Env.today = some 100 := by
        simp [Methods.getClosestIndexValue, Methods.pyMinBy, mkDate, c2Env]
      have hmonths : Methods.monthsOld c2Env.today (mkDate 2026 8 760) = 2 := by
        norm_num [Methods.monthsOld, c2Env, mkDate]
      simp only [Methods.lastRoundRun, hpre1, Methods.lastRoundExecute, hlr,
        hidx, hcl1, hcl2, Except.map, hmonths]
      rw [if_neg (show ¬((300 : ℚ) = 0) by norm_num)]
      have hadj : ¬(c2Data.adjustments ≠ []) := fun hk => hk rfl
      rw [if_neg hadj]
      rw [if_neg (show ¬((2 : ℤ) > defaultConfig.stale_round_threshold_months) by
        simp [defaultConfig])]
      simp only [Methods.lastRoundDetermineConfidence, defaultConfig]
      rw [if_pos (show (2 : ℤ) ≤ 6 by norm_num)]
      norm_num [round_decimal]
    have hrun2 : Methods.compsRun c2Env c2Data defaultConfig =
        .ok (.result ⟨.comparables, 325, .high, []⟩) := by
      have hpre2 : Methods.compsCheckPrerequisites c2Env c2Data defaultConfig
          = none := by
        simp [Methods.compsCheckPrerequisites, c2Env, c2Data, saasPeers,
          DataEnv.load_comparables, defaultConfig, mkDate]
      have hrev : c2Data.financials.revenue_ttm = some 100 := rfl
      have hload : c2Env.load_comparables c2Data.company.sector =
          some ⟨"saas", mkDate 2026 10 800, saasPeers⟩ := rfl
      simp only [Methods.compsRun, hpre2]
      simp only [Methods.compsExecute, hrev, hload, Methods.selectMultiple,
        Methods.calculatePrivateDiscount, Methods.compsDetermineConfidence,
        saasPeers, List.map_cons, List.map_nil, Except.map]
      rw [median_saasPeers]
      norm_num [round_decimal, List.sum_cons, defaultConfig,
        show c2Data.company.stage = CompanyStage.seed from rfl]
      exact fun h => absurd h (List.cons_ne_nil _ _)
    have hsort : Engine.sortedResults
        [⟨.last_round, 0, .high, []⟩, ⟨.comparables, 325, .high, []⟩] =
        [⟨.last_round, 0, .high, []⟩, ⟨.comparables, 325, .high, []⟩] := by
      apply List.mergeSort_of_sorted
      decide
    have hconf : Engine.calculateOverallConfidence defaultConfig
        [⟨.last_round, 0, .high, []⟩, ⟨.comparables, 325, .high, []⟩] =
        some .low := by
      simp only [Engine.calculateOverallConfidence, List.map_cons,
        List.map_nil, List.tail_cons, List.foldl_cons, List.foldl_nil,
        defaultConfig]
      norm_num [min_def, max_def]
    simp only [Engine.runWithData, hrun1, hrun2, MethodOutcome.result?,
      MethodOutcome.skipped?, List.filterMap]
    rw [if_neg (by simp)]
    simp only [Engine.summarize, Engine.primaryOf, hsort, List.head?_cons,
      hconf, Engine.pyMin, Engine.pyMax, List.map_cons, List.map_nil,
      List.foldl_cons, List.foldl_nil]
    norm_num [min_def, max_def, c2Data, c2Env]
  · simp only [claimOverallConfidence, claimConfidenceTable, List.map_cons,
      List.map_nil, List.foldl_cons, List.foldl_nil, defaultConfig]
    norm_num [min_def, List.contains_cons, beq_self_eq_true]

/-- Claim C2, witness for the amended rule: values 100 and 110 (spread
1/10 ≤ 0.15) with confidences HIGH and MEDIUM give overall HIGH. -/
theorem claim_C2_witness :
    Engine.calculateOverallConfidence defaultConfig
      [⟨.last_round, 100, .high, []⟩, ⟨.comparables, 110, .medium, []⟩] =
      some .high := by
  rw [claim_C2_overall_confidence_amended defaultConfig _ _ (by simp)]
  simp only [claimConfidenceTable, overallConfidenceSpread, List.map_cons,
    List.map_nil, List.foldl_cons, List.foldl_nil, defaultConfig]
  norm_num [min_def, max_def, List.contains_cons, beq_self_eq_true]

end VCAudit

namespace VCAudit

/-- The embedded `_summarize` succeeds on every non-empty result list. -/
theorem summarize_isSome (cfg : ValuationConfig) (results : List MethodResult)
    (h : results ≠ []) : ∃ s, Engine.summarize cfg results = some s := by
  obtain ⟨r, t, rfl⟩ := List.exists_cons_of_ne_nil h
  obtain ⟨p, hp⟩ : ∃ p, Engine.primaryOf (r :: t) = some p := by
    have hlen : (Engine.sortedResults (r :: t)).length = t.length + 1 := by
      simp [Engine.sortedResults, List.length_mergeSort]
    cases hsr : Engine.sortedResults (r :: t) with
    | nil => rw [hsr] at hlen; simp at hlen
    | cons p ps => exact ⟨p, by simp [Engine.primaryOf, hsr]⟩
  obtain ⟨c, hc⟩ : ∃ c, Engine.calculateOverallConfidence cfg (r :: t) = some c := by
    cases t with
    | nil => exact ⟨r.confidence, rfl⟩
    | cons x t' =>
      simp only [Engine.calculateOverallConfidence]
      split_ifs <;> exact ⟨_, rfl⟩
  have hsome : (Engine.summarize cfg (r :: t)).isSome := by
    simp [Engine.summarize, hp, hc]
  exact Option.isSome_iff_exists.mp hsome

/-- If `run_with_data` raised `NoValidMethodsError`, then both registered
methods failed their prerequisite checks. -/
theorem noValidMethods_implies_all_skipped (env : DataEnv) (data : CompanyData)
    (cfg : ValuationConfig) (cid : String) (rs : List (String × String))
    (herr : Engine.runWithData env data cfg =
      .error (.noValidMethods cid rs)) :
    (Methods.lastRoundCheckPrerequisites env data cfg).isSome ∧
    (Methods.compsCheckPrerequisites env data cfg).isSome := by
  cases hp1 : Methods.lastRoundCheckPrerequisites env data cfg with
  | none =>
    exfalso
    have hrun1 : Methods.lastRoundRun env data cfg =
        (Methods.lastRoundExecute env data cfg).map .result := by
      simp [Methods.lastRoundRun, hp1]
    cases hex : Methods.lastRoundExecute env data cfg with
    | error e =>
      rw [hex] at hrun1
      simp only [Engine.runWithData, hrun1, Except.map] at herr
      simp at herr
    | ok r =>
      rw [hex] at hrun1
      cases hc2 : Methods.compsRun env data cfg with
      | error e2 =>
        simp only [Engine.runWithData, hrun1, Except.map, hc2] at herr
        simp at herr
      | ok o2 =>
        have hres : ([MethodOutcome.result r, o2].filterMap (·.result?)) ≠ [] := by
          cases o2 <;> simp [MethodOutcome.result?]
        obtain ⟨ssum, hsum⟩ := summarize_isSome cfg
          ([MethodOutcome.result r, o2].filterMap (·.result?)) hres
        simp only [Engine.runWithData, hrun1, Except.map, hc2] at herr
        rw [if_neg hres] at herr
        rw [hsum] at herr
        simp at herr
  | some r1 =>
    cases hp2 : Methods.compsCheckPrerequisites env data cfg with
    | none =>
      exfalso
      have hrun1 : Methods.lastRoundRun env data cfg =
          .ok (.skipped ⟨.last_round, r1⟩) := by
        simp [Methods.lastRoundRun, hp1]
      have hrun2 : Methods.compsRun env data cfg =
          (Methods.compsExecute env data cfg).map .result := by
        simp [Methods.compsRun, hp2]
      cases hex : Methods.compsExecute env data cfg with
      | error e =>
        rw [hex] at hrun2
        simp only [Engine.runWithData, hrun1, hrun2, Except.map] at herr
        simp at herr
      | ok r =>
        rw [hex] at hrun2
        have hres : ([MethodOutcome.skipped ⟨.last_round, r1⟩,
            MethodOutcome.result r].filterMap (·.result?)) ≠ [] := by
          simp [MethodOutcome.result?]
        obtain ⟨ssum, hsum⟩ := summarize_isSome cfg
          ([MethodOutcome.skipped ⟨.last_round, r1⟩,
            MethodOutcome.result r].filterMap (·.result?)) hres
        simp only [Engine.runWithData, hrun1, hrun2, Except.map] at herr
        rw [if_neg hres] at herr
        rw [hsum] at herr
        simp at herr
    | some r2 => exact ⟨by simp, by simp⟩

/-- Claim C4 (amended): `run_with_data` raises the no-valid-methods error
exactly when the prerequisite checks of both registered methods fail, and that
error carries the map from the identifier of each skipped method to its skip
reason, in registration order; in particular a `CompanyData` with no
revenue figure and no `LastRound` yields entries for both `last_round`
and `comparables`.  (A calculation error escaping `execute` — see the
counterexample of this claim — is a different error and can occur even when a
prerequisite passes.) -/
theorem claim_C4_no_valid_methods (env : DataEnv) (data : CompanyData)
    (cfg : ValuationConfig) :
    ((∃ cid rs, Engine.runWithData env data cfg =
        .error (.noValidMethods cid rs)) ↔
      ((Methods.lastRoundCheckPrerequisites env data cfg).isSome ∧
       (Methods.compsCheckPrerequisites env data cfg).isSome)) ∧
    (∀ r1 r2, Methods.lastRoundCheckPrerequisites env data cfg = some r1 →
      Methods.compsCheckPrerequisites env data cfg = some r2 →
      Engine.runWithData env data cfg =
        .error (.noValidMethods data.company.id
          [("last_round", r1), ("comparables", r2)])) ∧
    Engine.runWithData env c4Data cfg =
      .error (.noValidMethods "prerevenue_no_round"
        [("last_round", "No last funding round data available"),
         ("comparables", "Company has no revenue data (pre-revenue)")]) := by
  have hbuild : ∀ r1 r2,
      Methods.lastRoundCheckPrerequisites env data cfg = some r1 →
      Methods.compsCheckPrerequisites env data cfg = some r2 →
      Engine.runWithData env data cfg =
        .error (.noValidMethods data.company.id
          [("last_round", r1), ("comparables", r2)]) := by
    intro r1 r2 hp1 hp2
    have hrun1 : Methods.lastRoundRun env data cfg =
        .ok (.skipped ⟨.last_round, r1⟩) := by
      simp [Methods.lastRoundRun, hp1]
    have hrun2 : Methods.compsRun env data cfg =
        .ok (.skipped ⟨.comparables, r2⟩) := by
      simp [Methods.compsRun, hp2]
    simp [Engine.runWithData, hrun1, hrun2, MethodOutcome.result?,
      MethodOutcome.skipped?, MethodName.val]
  refine ⟨⟨fun ⟨cid, rs, herr⟩ =>
      noValidMethods_implies_all_skipped env data cfg cid rs herr, ?_⟩,
    hbuild, ?_⟩
  · rintro ⟨h1, h2⟩
    obtain ⟨r1, hp1⟩ := Option.isSome_iff_exists.mp h1
    obtain ⟨r2, hp2⟩ := Option.isSome_iff_exists.mp h2
    exact ⟨_, _, hbuild r1 r2 hp1 hp2⟩
  · have hp1 : Methods.lastRoundCheckPrerequisites env c4Data cfg =
        some "No last funding round data available" := rfl
    have hp2 : Methods.compsCheckPrerequisites env c4Data cfg =
        some "Company has no revenue data (pre-revenue)" := rfl
    have hrun1 : Methods.lastRoundRun env c4Data cfg =
        .ok (.skipped ⟨.last_round, "No last funding round data available"⟩) := by
      simp [Methods.lastRoundRun, hp1]
    have hrun2 : Methods.compsRun env c4Data cfg =
        .ok (.skipped ⟨.comparables, "Company has no revenue data (pre-revenue)"⟩) := by
      simp [Methods.compsRun, hp2]
    simp [Engine.runWithData, hrun1, hrun2, MethodOutcome.result?,
      MethodOutcome.skipped?, MethodName.val,
      show c4Data.company.id = "prerevenue_no_round" from rfl]

/-- Claim C4, counterexample to the claim as stated ("raises an error …
exactly when every prerequisite fails"): with a single NASDAQ point of
value 0, the Last Round prerequisites pass but execution divides by zero,
so `run_with_data` raises an error that is not the no-valid-methods one
while a prerequisite check succeeded. -/
theorem claim_C4_counterexample :
    Engine.runWithData c4zEnv c4zData defaultConfig =
      .error (.calculationError "ZeroDivisionError") ∧
    Methods.lastRoundCheckPrerequisites c4zEnv c4zData defaultConfig = none := by
  have hpre1 : Methods.lastRoundCheckPrerequisites c4zEnv c4zData defaultConfig
      = none := by
    simp [Methods.lastRoundCheckPrerequisites, c4zEnv, c4zData, mkDate,
      Methods.monthsOld, defaultConfig, DataEnv.get_index, List.lookup]
  refine ⟨?_, hpre1⟩
  have hex : Methods.lastRoundExecute c4zEnv c4zData defaultConfig =
      .error "ZeroDivisionError" := by
    have hlr : c4zData.last_round = some ⟨mkDate 2026 9 790, 10, 2, 12, none⟩ :=
      rfl
    have hidx : c4zEnv.get_index "NASDAQ" =
        some [⟨mkDate 2026 9 790, 0, "NASDAQ"⟩] := rfl
    have hcl1 : Methods.getClosestIndexValue [⟨mkDate 2026 9 790, 0, "NASDAQ"⟩]
        (mkDate 2026 9 790) = some 0 := rfl
    have hcl2 : Methods.getClosestIndexValue [⟨mkDate 2026 9 790, 0, "NASDAQ"⟩]
        c4zEnv.today = some 0 := rfl
    simp only [Methods.lastRoundExecute, hlr, hidx, hcl1, hcl2]
    simp
  have hrun1 : Methods.lastRoundRun c4zEnv c4zData defaultConfig =
      .error "ZeroDivisionError" := by
    simp [Methods.lastRoundRun, hpre1, hex, Except.map]
  simp [Engine.runWithData, hrun1]

/-- Claim C4, witness: the no-valid-methods error for a company with no
revenue and no round, derived through the main theorem. -/
theorem claim_C4_witness :
    Engine.runWithData c4zEnv c4Data defaultConfig =
      .error (.noValidMethods "prerevenue_no_round"
        [("last_round", "No last funding round data available"),
         ("comparables", "Company has no revenue data (pre-revenue)")]) :=
  (claim_C4_no_valid_methods c4zEnv c4Data defaultConfig).2.2

end VCAudit
